import Mathlib

/-!
Shallow embedding of `brainpy_datasets/_src/cognitive/utils.py` and
`brainpy_datasets/_src/cognitive/others.py`: the layout helper `interval_of`
and the trial samplers of the `AntiReach` and `Reaching1D` cognitive tasks,
together with theorems settling the specification claims about them.

Layouts (ordered mappings name -> length) are embedded as `List (String × Nat)`
(a Python `dict` preserves insertion order and is converted with
`tuple(total.items())` before the walk).  Numpy arrays are embedded as
shape-carrying structures whose entries are total functions; slice
assignment / in-place addition become pointwise updates guarded by the
slice bounds, which agrees with numpy on the in-bounds slices the code uses.
-/

namespace BrainpyDatasets

open Real

/-! ## `interval_of` (utils.py) -/

/-- Accumulator walk of `interval_of`: `s` is the running offset.  Mirrors the
`for k, v in total` loop: on the first key equal to `elem` return
`slice(s, s + v)`, otherwise add `v` to the offset; falling off the end of
the loop raises `ValueError('Not found')`, embedded as `none`. -/
def intervalOfAux (elem : String) (s : Nat) : List (String × Nat) → Option (Nat × Nat)
  | [] => none
  | (k, v) :: rest => if k = elem then some (s, s + v) else intervalOfAux elem (s + v) rest

/-- `interval_of(elem, total)` from `utils.py`: resolve a segment name to its
half-open index range inside a concatenated layout.  A slice `slice(a, b)` is
embedded as the pair `(a, b)`; the `ValueError` path is `none`. -/
def interval_of (elem : String) (total : List (String × Nat)) : Option (Nat × Nat) :=
  intervalOfAux elem 0 total

/-- Sum of the declared lengths of a layout. -/
def sumLens (total : List (String × Nat)) : Nat :=
  (total.map Prod.snd).sum

theorem intervalOfAux_append (elem : String) (v : Nat)
    (pre rest : List (String × Nat)) (hpre : ∀ p ∈ pre, p.1 ≠ elem) (s : Nat) :
    intervalOfAux elem s (pre ++ (elem, v) :: rest) =
      some (s + sumLens pre, s + sumLens pre + v) := by
  induction pre generalizing s with
  | nil => simp [intervalOfAux, sumLens]
  | cons p pre ih =>
    obtain ⟨k, w⟩ := p
    have hk : k ≠ elem := hpre (k, w) (List.mem_cons_self _ _)
    have hrest : ∀ q ∈ pre, q.1 ≠ elem := fun q hq => hpre q (List.mem_cons_of_mem _ hq)
    simp only [List.cons_append, intervalOfAux, if_neg hk, List.append_eq]
    rw [ih hrest (s + w)]
    simp only [sumLens, List.map_cons, List.sum_cons, Option.some.injEq, Prod.mk.injEq]
    omega

theorem intervalOfAux_not_mem (elem : String) (total : List (String × Nat))
    (h : elem ∉ total.map Prod.fst) (s : Nat) :
    intervalOfAux elem s total = none := by
  induction total generalizing s with
  | nil => rfl
  | cons p rest ih =>
    obtain ⟨k, w⟩ := p
    simp only [List.map_cons, List.mem_cons] at h
    push_neg at h
    have hk : k ≠ elem := fun hke => h.1 hke.symm
    simp only [intervalOfAux, if_neg hk]
    exact ih h.2 _

/-- C1: for every layout and every name present in it, `interval_of` returns
the half-open range `[offset, offset + length)` where `length` is the declared
length of the first entry carrying that name and `offset` is the sum of the
lengths of all entries preceding that first match; entries after the first
match (duplicates included) are ignored. -/
theorem interval_of_first_match (elem : String) (v : Nat)
    (pre rest : List (String × Nat)) (hpre : ∀ p ∈ pre, p.1 ≠ elem) :
    interval_of elem (pre ++ (elem, v) :: rest) =
      some (sumLens pre, sumLens pre + v) := by
  have h := intervalOfAux_append elem v pre rest hpre 0
  simpa [interval_of] using h

/-- Witness for C1: a concrete layout with a duplicate name; the first match
wins and its offset is the sum of the preceding lengths. -/
theorem interval_of_first_match_witness :
    interval_of "stimulus" [("fixation", 2), ("stimulus", 3), ("stimulus", 9)] =
      some (2, 5) :=
  interval_of_first_match "stimulus" 3 [("fixation", 2)] [("stimulus", 9)]
    (by decide)

/-- C2: for every layout and every name absent from it, `interval_of` signals
"not found" (the `ValueError` branch, embedded as `none`) instead of returning
a range. -/
theorem interval_of_not_found (elem : String) (total : List (String × Nat))
    (h : elem ∉ total.map Prod.fst) :
    interval_of elem total = none :=
  intervalOfAux_not_mem elem total h 0

/-- Witness for C2: a concrete absent name. -/
theorem interval_of_not_found_witness :
    interval_of "decision" [("fixation", 5), ("reach", 5)] = none :=
  interval_of_not_found "decision" [("fixation", 5), ("reach", 5)] (by decide)

/-! ## Numpy array model

Array entries are floats, embedded as `ℝ`; the section is `noncomputable`
only because `ℝ` carries no executable code — all index arithmetic and all
layout bookkeeping stay in `Nat`/`ℤ` and reduce by `decide`/`simp`. -/

noncomputable section

/-- A 2-D float array: shape plus a total entry function (out-of-range indices
read the fill value 0, which is never relied upon in bounds-respecting code). -/
structure Arr2 where
  rows : Nat
  cols : Nat
  entry : Nat → Nat → ℝ

/-- `np.zeros((r, c))`. -/
def zeros2 (r c : Nat) : Arr2 :=
  ⟨r, c, fun _ _ => 0⟩

/-- `X[r0:r1, c0:c1] += v` where `v` is broadcast along rows and indexed along
the sliced columns (`v 0` lands in column `c0`).  A scalar add is `fun _ => v`.
Agrees with numpy for the in-bounds slices used by the samplers. -/
def addVec2 (X : Arr2) (r c : Nat × Nat) (v : Nat → ℝ) : Arr2 :=
  ⟨X.rows, X.cols, fun i j =>
    if r.1 ≤ i ∧ i < r.2 ∧ c.1 ≤ j ∧ j < c.2 then X.entry i j + v (j - c.1)
    else X.entry i j⟩

/-- A 1-D array over `α` (the samplers allocate `np.zeros(n, dtype=int)`). -/
structure Arr1 (α : Type) where
  size : Nat
  entry : Nat → α

/-- `np.zeros(n, dtype=int)`. -/
def zeros1 (n : Nat) : Arr1 ℤ :=
  ⟨n, fun _ => 0⟩

/-- `Y[r0:r1] = v` (the value is already converted to the array's dtype). -/
def setSlice1 {α : Type} (Y : Arr1 α) (r : Nat × Nat) (v : α) : Arr1 α :=
  ⟨Y.size, fun i => if r.1 ≤ i ∧ i < r.2 then v else Y.entry i⟩

/-- `np.mod(x, y)` on floats (floored modulo, for `y > 0`). -/
def npMod (x y : ℝ) : ℝ :=
  x - y * ⌊x / y⌋

/-- Storing a float into an int-dtype numpy array truncates toward zero
(C-style cast), as does Python's `int(...)`. -/
def npTrunc (x : ℝ) : ℤ :=
  if 0 ≤ x then ⌊x⌋ else -⌊-x⌋

/-- `int(t / dt)` realizing a constant duration `t` into a step count
(truncation toward zero; both arguments are non-negative in the tasks). -/
def nSteps (t dt : ℚ) : ℕ :=
  (if 0 ≤ t / dt then ⌊t / dt⌋ else -⌊-(t / dt)⌋).toNat

/-- Extract the slice bounds from `interval_of`; the samplers only query names
present in their fixed layouts, so the `ValueError` default is never taken
(proved where used). -/
def slcOf (o : Option (Nat × Nat)) : Nat × Nat :=
  o.getD (0, 0)

/-- Optional transform application: `X = f(X) if f is not None else X`. -/
def applyOpt {α : Type} (f : Option (α → α)) (x : α) : α :=
  match f with
  | none => x
  | some g => g x

/-- The value returned by `sample_a_trial`:
`[X, dict(ax0=dim0, ax1=dim1)], [Y, dict(ax0=dim0)]`. -/
structure TrialPair where
  X : Arr2
  Xax0 : List (String × Nat)
  Xax1 : List (String × Nat)
  Y : Arr1 ℤ
  Yax0 : List (String × Nat)

/-! ## `AntiReach.sample_a_trial` (others.py)

The realized step counts `nFix, nStim, nDelay, nDecision` stand for
`int(. . ./dt)` of the (possibly stochastic) durations, and `g` for the draw
`rng.choice(arange(num_choice))`; both are inputs of the embedding since the
duration resolver and the random generator live outside `src/`. -/

namespace AntiReach

/-- `_time_periods` in trial order: fixation, stimulus, delay, decision. -/
def timePeriods (nFix nStim nDelay nDecision : Nat) : List (String × Nat) :=
  [("fixation", nFix), ("stimulus", nStim), ("delay", nDelay), ("decision", nDecision)]

/-- `self._feature_periods = {'fixation': 1, 'choice': num_choice}`. -/
def featurePeriods (numChoice : Nat) : List (String × Nat) :=
  [("fixation", 1), ("choice", numChoice)]

/-- `self._features = np.arange(0, 2*pi, 2*pi/num_choice)`: element `i` is
`2*pi*i/num_choice`. -/
def features (numChoice i : Nat) : ℝ :=
  2 * π * i / numChoice

/-- `stim_theta`: the anti branch applies `np.mod(. + pi, 2*pi)`. -/
def stimTheta (numChoice : Nat) (anti : Bool) (g : Nat) : ℝ :=
  if anti then npMod (features numChoice g + π) (2 * π) else features numChoice g

/-- `stim = np.cos(self._features - stim_theta)`, element `j`. -/
def stim (numChoice : Nat) (anti : Bool) (g j : Nat) : ℝ :=
  Real.cos (features numChoice j - stimTheta numChoice anti g)

/-- `X` after all in-place updates, before the optional input transform. -/
def rawX (numChoice : Nat) (anti : Bool) (nFix nStim nDelay nDecision g : Nat) : Arr2 :=
  let tp := timePeriods nFix nStim nDelay nDecision
  let fp := featurePeriods numChoice
  let X0 := zeros2 (sumLens tp) (numChoice + 1)
  let X1 := addVec2 X0 (slcOf (interval_of "fixation" tp))
    (slcOf (interval_of "fixation" fp)) (fun _ => 1)
  let X2 := addVec2 X1 (slcOf (interval_of "stimulus" tp))
    (slcOf (interval_of "fixation" fp)) (fun _ => 1)
  let X3 := addVec2 X2 (slcOf (interval_of "delay" tp))
    (slcOf (interval_of "fixation" fp)) (fun _ => 1)
  addVec2 X3 (slcOf (interval_of "stimulus" tp))
    (slcOf (interval_of "choice" fp)) (stim numChoice anti g)

/-- `Y` before the optional target transform: zeros, then
`Y[interval_of('decision', ...)] = ground_truth + 1`. -/
def rawY (nFix nStim nDelay nDecision g : Nat) : Arr1 ℤ :=
  let tp := timePeriods nFix nStim nDelay nDecision
  setSlice1 (zeros1 (sumLens tp)) (slcOf (interval_of "decision" tp)) ((g : ℤ) + 1)

/-- Feature-axis metadata returned for `X`:
`dim1 = [('fixation', 1), ('stimulus', num_choice)]`. -/
def dim1 (numChoice : Nat) : List (String × Nat) :=
  [("fixation", 1), ("stimulus", numChoice)]

/-- `AntiReach.sample_a_trial` (`item` is accepted and ignored, as in the
Python signature). -/
def sample_a_trial (numChoice : Nat) (anti : Bool) (nFix nStim nDelay nDecision g : Nat)
    (inputTransform : Option (Arr2 → Arr2)) (targetTransform : Option (Arr1 ℤ → Arr1 ℤ))
    (item : Nat) : TrialPair :=
  let _ := item
  let X := applyOpt inputTransform (rawX numChoice anti nFix nStim nDelay nDecision g)
  let Y := applyOpt targetTransform (rawY nFix nStim nDelay nDecision g)
  let dim0 := timePeriods nFix nStim nDelay nDecision
  ⟨X, dim0, dim1 numChoice, Y, dim0⟩

/-- Variant with fallible transforms: a Python transform that raises aborts
the call, so the result is `Except` with the transform's error propagated. -/
def sampleATrialE (numChoice : Nat) (anti : Bool) (nFix nStim nDelay nDecision g : Nat)
    (inputTransform : Option (Arr2 → Except String Arr2))
    (targetTransform : Option (Arr1 ℤ → Except String (Arr1 ℤ)))
    (item : Nat) : Except String TrialPair := do
  let _ := item
  let X ← match inputTransform with
    | none => pure (rawX numChoice anti nFix nStim nDelay nDecision g)
    | some f => f (rawX numChoice anti nFix nStim nDelay nDecision g)
  let Y ← match targetTransform with
    | none => pure (rawY nFix nStim nDelay nDecision g)
    | some f => f (rawY nFix nStim nDelay nDecision g)
  let dim0 := timePeriods nFix nStim nDelay nDecision
  pure ⟨X, dim0, dim1 numChoice, Y, dim0⟩

end AntiReach

/-! ## `Reaching1D.sample_a_trial` (others.py)

`nFix, nReach` are the realized step counts and `g` the continuous draw
`rng.uniform(0, 2*pi)`. -/

namespace Reaching1D

/-- `_time_periods = {'fixation': n_fixation, 'reach': n_reach}`. -/
def timePeriods (nFix nReach : Nat) : List (String × Nat) :=
  [("fixation", nFix), ("reach", nReach)]

/-- `self._feature_periods = {'target': num_choice, 'self': num_choice}`. -/
def featurePeriods (numChoice : Nat) : List (String × Nat) :=
  [("target", numChoice), ("self", numChoice)]

/-- `self._features = np.linspace(0, 2*pi, num_choice+1)[:-1]`: element `i` is
`2*pi*i/num_choice`. -/
def features (numChoice i : Nat) : ℝ :=
  2 * π * i / numChoice

/-- `X` after the single in-place update
`X[ax0_reach, ax1_target] += np.cos(self._features - ground_truth)`;
allocated as `np.zeros((n_total, len(self.input_features)))` with
`len(input_features) = 2 * num_choice`. -/
def rawX (numChoice nFix nReach : Nat) (g : ℝ) : Arr2 :=
  let tp := timePeriods nFix nReach
  let X0 := zeros2 (sumLens tp) (2 * numChoice)
  addVec2 X0 (slcOf (interval_of "reach" tp))
    (slcOf (interval_of "target" (featurePeriods numChoice)))
    (fun j => Real.cos (features numChoice j - g))

/-- `Y` before the optional target transform: `np.zeros(n_total, dtype=int)`,
then `Y[ax0_fixation] = np.pi` and `Y[ax0_reach] = ground_truth` — both stores
go through the int dtype and are truncated. -/
def rawY (nFix nReach : Nat) (g : ℝ) : Arr1 ℤ :=
  let tp := timePeriods nFix nReach
  let Y1 := setSlice1 (zeros1 (sumLens tp)) (slcOf (interval_of "fixation" tp)) (npTrunc π)
  setSlice1 Y1 (slcOf (interval_of "reach" tp)) (npTrunc g)

/-- `dim1 = [('target', num_choice), ('self', num_choice)]`. -/
def dim1 (numChoice : Nat) : List (String × Nat) :=
  [("target", numChoice), ("self", numChoice)]

/-- `Reaching1D.sample_a_trial` (`item` accepted and ignored). -/
def sample_a_trial (numChoice nFix nReach : Nat) (g : ℝ)
    (inputTransform : Option (Arr2 → Arr2)) (targetTransform : Option (Arr1 ℤ → Arr1 ℤ))
    (item : Nat) : TrialPair :=
  let _ := item
  let X := applyOpt inputTransform (rawX numChoice nFix nReach g)
  let Y := applyOpt targetTransform (rawY nFix nReach g)
  let dim0 := timePeriods nFix nReach
  ⟨X, dim0, dim1 numChoice, Y, dim0⟩

/-- Variant with fallible transforms, as for `AntiReach`. -/
def sampleATrialE (numChoice nFix nReach : Nat) (g : ℝ)
    (inputTransform : Option (Arr2 → Except String Arr2))
    (targetTransform : Option (Arr1 ℤ → Except String (Arr1 ℤ)))
    (item : Nat) : Except String TrialPair := do
  let _ := item
  let X ← match inputTransform with
    | none => pure (rawX numChoice nFix nReach g)
    | some f => f (rawX numChoice nFix nReach g)
  let Y ← match targetTransform with
    | none => pure (rawY nFix nReach g)
    | some f => f (rawY nFix nReach g)
  let dim0 := timePeriods nFix nReach
  pure ⟨X, dim0, dim1 numChoice, Y, dim0⟩

end Reaching1D

end

/-! ## Claim theorems for the samplers -/

noncomputable section

theorem antiReach_interval_decision (a b c d : Nat) :
    interval_of "decision" (AntiReach.timePeriods a b c d) = some (a + b + c, a + b + c + d) := by
  simp [interval_of, intervalOfAux, AntiReach.timePeriods]

/-- C4: in every `AntiReach` trial with no target transform, the returned `Y`
equals `ground_truth + 1` at every step of the decision segment and `0` at
every other step (label 0 marks "no response expected"); `ground_truth` is the
drawn choice index, which lies in `{0, ..., num_choice - 1}`. -/
theorem antiReach_Y_decision (numChoice : Nat) (anti : Bool)
    (nFix nStim nDelay nDecision g item : Nat) (hg : g < numChoice) (t : Nat) :
    (AntiReach.sample_a_trial numChoice anti nFix nStim nDelay nDecision g
        none none item).Y.entry t =
      if nFix + nStim + nDelay ≤ t ∧ t < nFix + nStim + nDelay + nDecision
      then (g : ℤ) + 1 else 0 := by
  show (AntiReach.rawY nFix nStim nDelay nDecision g).entry t = _
  rw [AntiReach.rawY, antiReach_interval_decision]
  simp only [setSlice1, zeros1, slcOf, Option.getD_some]

/-- Witness for C4: a concrete trial; step 11 lies in the decision segment and
step 9 does not. -/
theorem antiReach_Y_decision_witness :
    ((AntiReach.sample_a_trial 4 true 5 5 0 5 2 none none 0).Y.entry 11 =
      if 5 + 5 + 0 ≤ 11 ∧ 11 < 5 + 5 + 0 + 5 then ((2 : ℕ) : ℤ) + 1 else 0) ∧
    ((AntiReach.sample_a_trial 4 true 5 5 0 5 2 none none 0).Y.entry 9 =
      if 5 + 5 + 0 ≤ 9 ∧ 9 < 5 + 5 + 0 + 5 then ((2 : ℕ) : ℤ) + 1 else 0) :=
  ⟨antiReach_Y_decision 4 true 5 5 0 5 2 0 (by decide) 11,
   antiReach_Y_decision 4 true 5 5 0 5 2 0 (by decide) 9⟩

theorem antiReach_interval_fixation (a b c d : Nat) :
    interval_of "fixation" (AntiReach.timePeriods a b c d) = some (0, a) := by
  simp [interval_of, intervalOfAux, AntiReach.timePeriods]

theorem antiReach_interval_stimulus (a b c d : Nat) :
    interval_of "stimulus" (AntiReach.timePeriods a b c d) = some (a, a + b) := by
  simp [interval_of, intervalOfAux, AntiReach.timePeriods]

theorem antiReach_interval_delay (a b c d : Nat) :
    interval_of "delay" (AntiReach.timePeriods a b c d) = some (a + b, a + b + c) := by
  simp [interval_of, intervalOfAux, AntiReach.timePeriods]

theorem antiReach_feature_fixation (n : Nat) :
    interval_of "fixation" (AntiReach.featurePeriods n) = some (0, 1) := by
  simp [interval_of, intervalOfAux, AntiReach.featurePeriods]

theorem antiReach_feature_choice (n : Nat) :
    interval_of "choice" (AntiReach.featurePeriods n) = some (1, 1 + n) := by
  simp [interval_of, intervalOfAux, AntiReach.featurePeriods]

theorem nSteps_500_100 : nSteps 500 100 = 5 := by norm_num [nSteps]; rfl

theorem nSteps_0_100 : nSteps 0 100 = 0 := by norm_num [nSteps]

/-- The `AntiReach` trial of C5: `dt=100`, `t_fixation=500`, `t_stimulus=500`,
`t_delay=0`, `t_decision=500`, `num_choice=4`, `anti=True`, no transforms. -/
def c5Trial (g : Nat) : TrialPair :=
  AntiReach.sample_a_trial 4 true (nSteps 500 100) (nSteps 500 100) (nSteps 0 100)
    (nSteps 500 100) g none none 0

/-- Counterexample for C5: the claim puts the fixation channel at 1 on all of
`[0, 15)`, but fixation+stimulus+delay only cover steps `[0, 10)` (the delay
segment is empty); at step 10 — a decision step — the fixation channel is 0. -/
theorem c5_fixation_channel_counterexample :
    10 < 15 ∧ (c5Trial 0).X.entry 10 0 ≠ 1 := by
  refine ⟨by norm_num, ?_⟩
  unfold c5Trial
  rw [nSteps_500_100, nSteps_0_100]
  simp only [AntiReach.sample_a_trial, applyOpt, AntiReach.rawX, addVec2, zeros2, slcOf,
    antiReach_interval_fixation, antiReach_interval_stimulus, antiReach_interval_delay,
    antiReach_feature_fixation, antiReach_feature_choice, Option.getD_some]
  norm_num

theorem antiReach_fixation_channel (numChoice : Nat) (anti : Bool)
    (nFix nStim nDelay nDecision g t : Nat) :
    (AntiReach.rawX numChoice anti nFix nStim nDelay nDecision g).entry t 0 =
      if t < nFix + nStim + nDelay then 1 else 0 := by
  simp only [AntiReach.rawX, addVec2, zeros2, slcOf,
    antiReach_interval_fixation, antiReach_interval_stimulus, antiReach_interval_delay,
    antiReach_feature_fixation, antiReach_feature_choice, Option.getD_some]
  split_ifs <;> first | omega | norm_num

/-- C5 as amended: for `AntiReach` with `dt=100`, `t_fixation=500`,
`t_stimulus=500`, `t_delay=0`, `t_decision=500`, `num_choice=4`, `anti=True`
and no transforms, the trial has 15 time steps and `X` has 5 input channels,
but the fixation channel equals 1 only on steps `[0, 10)` — the
fixation+stimulus+delay span, the delay segment being empty — and equals 0 on
the decision steps `[10, 15)`. -/
theorem c5_amended (g t : Nat) (hg : g < 4) :
    (c5Trial g).X.rows = 15 ∧ (c5Trial g).X.cols = 5 ∧
    (t < 10 → (c5Trial g).X.entry t 0 = 1) ∧
    (10 ≤ t → t < 15 → (c5Trial g).X.entry t 0 = 0) := by
  have hX : (c5Trial g).X = AntiReach.rawX 4 true 5 5 0 5 g := by
    unfold c5Trial
    rw [nSteps_500_100, nSteps_0_100]
    rfl
  rw [hX]
  refine ⟨rfl, rfl, fun ht => ?_, fun ht1 ht2 => ?_⟩
  · rw [antiReach_fixation_channel, if_pos (by omega)]
  · rw [antiReach_fixation_channel, if_neg (by omega)]

/-- Witness for C5 (amended): concrete shape facts, channel value 1 at step 3
and 0 at step 12. -/
theorem c5_amended_witness :
    (c5Trial 1).X.rows = 15 ∧ (c5Trial 1).X.cols = 5 ∧
    (c5Trial 1).X.entry 3 0 = 1 ∧ (c5Trial 1).X.entry 12 0 = 0 :=
  ⟨(c5_amended 1 3 (by norm_num)).1,
   (c5_amended 1 3 (by norm_num)).2.1,
   (c5_amended 1 3 (by norm_num)).2.2.1 (by norm_num),
   (c5_amended 1 12 (by norm_num)).2.2.2 (by norm_num) (by norm_num)⟩

theorem reaching_interval_fixation (a b : Nat) :
    interval_of "fixation" (Reaching1D.timePeriods a b) = some (0, a) := by
  simp [interval_of, intervalOfAux, Reaching1D.timePeriods]

theorem reaching_interval_reach (a b : Nat) :
    interval_of "reach" (Reaching1D.timePeriods a b) = some (a, a + b) := by
  simp [interval_of, intervalOfAux, Reaching1D.timePeriods]

theorem reaching_feature_target (n : Nat) :
    interval_of "target" (Reaching1D.featurePeriods n) = some (0, n) := by
  simp [interval_of, intervalOfAux, Reaching1D.featurePeriods]

/-- C7: in every `Reaching1D` trial with no input transform, the "self"
feature block (channels `num_choice, ..., 2*num_choice - 1` of `X`) is never
written and reads 0 at every step, and the "target" block (the first
`num_choice` channels) is 0 outside the reach segment — the single in-place
update touches only the target columns of the reach rows. -/
theorem reaching1D_self_target_zero (numChoice nFix nReach : Nat) (g : ℝ) (item t j : Nat) :
    (numChoice ≤ j →
      (Reaching1D.sample_a_trial numChoice nFix nReach g none none item).X.entry t j = 0) ∧
    ((t < nFix ∨ nFix + nReach ≤ t) →
      (Reaching1D.sample_a_trial numChoice nFix nReach g none none item).X.entry t j = 0) := by
  refine ⟨fun hj => ?_, fun ht => ?_⟩ <;>
    (show (Reaching1D.rawX numChoice nFix nReach g).entry t j = 0
     simp only [Reaching1D.rawX, addVec2, zeros2, slcOf, reaching_interval_reach,
       reaching_feature_target, Option.getD_some]
     split_ifs <;> first | omega | rfl)

/-- Witness for C7: a concrete trial; a "self" channel during reach and a
"target" channel during fixation both read 0. -/
theorem reaching1D_self_target_zero_witness :
    (Reaching1D.sample_a_trial 2 5 5 0 none none 0).X.entry 7 3 = 0 ∧
    (Reaching1D.sample_a_trial 2 5 5 0 none none 0).X.entry 2 1 = 0 :=
  ⟨(reaching1D_self_target_zero 2 5 5 0 0 7 3).1 (by norm_num),
   (reaching1D_self_target_zero 2 5 5 0 0 2 1).2 (Or.inl (by norm_num))⟩

/-- C6 (divergence between code and claim): `Reaching1D.sample_a_trial`
allocates `Y = np.zeros(n_total, dtype=int)`, so the stores `Y[fixation] = pi`
and `Y[reach] = ground_truth` truncate to integers.  For
`dt=100, t_fixation=500, t_reach=500` and `ground_truth = 5/2`, step 0 of `Y`
holds `int(pi) = 3`, not `pi`, and step 5 holds `int(5/2) = 2`, not `5/2` —
against the claimed floating-point `Y` with `Y[0:5] == pi`,
`Y[5:10] == ground_truth`. -/
theorem c6_Y_truncation_divergence :
    (Reaching1D.sample_a_trial 2 (nSteps 500 100) (nSteps 500 100) (5 / 2 : ℝ)
        none none 0).Y.entry 0 = 3 ∧
    (Reaching1D.sample_a_trial 2 (nSteps 500 100) (nSteps 500 100) (5 / 2 : ℝ)
        none none 0).Y.entry 5 = 2 ∧
    ((3 : ℝ) ≠ π) ∧ ((2 : ℝ) ≠ (5 / 2 : ℝ)) := by
  have hY : (Reaching1D.sample_a_trial 2 (nSteps 500 100) (nSteps 500 100) (5 / 2 : ℝ)
      none none 0).Y = Reaching1D.rawY 5 5 (5 / 2 : ℝ) := by
    rw [nSteps_500_100]
    rfl
  have hpi : npTrunc π = 3 := by
    rw [npTrunc, if_pos Real.pi_pos.le, Int.floor_eq_iff]
    constructor
    · push_cast
      linarith [Real.pi_gt_three]
    · push_cast
      linarith [Real.pi_lt_d2]
  have hhalf : npTrunc (5 / 2 : ℝ) = 2 := by
    rw [npTrunc, if_pos (by norm_num), Int.floor_eq_iff]
    norm_num
  refine ⟨?_, ?_, ne_of_lt Real.pi_gt_three, by norm_num⟩ <;>
    (rw [hY]
     simp only [Reaching1D.rawY, setSlice1, zeros1, slcOf, reaching_interval_fixation,
       reaching_interval_reach, Option.getD_some, hpi, hhalf]
     norm_num)

theorem cos_sub_npMod (a b : ℝ) : Real.cos (a - npMod b (2 * π)) = Real.cos (a - b) := by
  have h : a - npMod b (2 * π) = (a - b) + (⌊b / (2 * π)⌋ : ℤ) * (2 * π) := by
    simp [npMod]
    ring
  rw [h, Real.cos_add_int_mul_two_pi]

/-- C3: in every `AntiReach` trial, `stim_theta` is the feature angle of
`ground_truth` plus `pi` modulo `2*pi` when `anti` is true and the feature
angle itself when `anti` is false; consequently the stimulus channel vector
`cos(features - stim_theta)` is everywhere at most 1 and attains 1 at the
feature index opposite `ground_truth` (the index at angular distance `pi`,
which exists since `num_choice = 2*m` is even) when `anti` is true, and at
`ground_truth` itself when `anti` is false. -/
theorem antiReach_stim_theta_peak (n m g : Nat) (hn : n = 2 * m) (hm : 0 < m)
    (hg : g < n) :
    AntiReach.stimTheta n true g = npMod (AntiReach.features n g + π) (2 * π) ∧
    AntiReach.stimTheta n false g = AntiReach.features n g ∧
    (∀ j, AntiReach.stim n true g j ≤ 1) ∧
    AntiReach.stim n true g ((g + n / 2) % n) = 1 ∧
    (∀ j, AntiReach.stim n false g j ≤ 1) ∧
    AntiReach.stim n false g g = 1 := by
  subst hn
  refine ⟨rfl, rfl, fun j => Real.cos_le_one _, ?_, fun j => Real.cos_le_one _, ?_⟩
  · have hhalf : (2 * m) / 2 = m := by omega
    rw [hhalf]
    unfold AntiReach.stim AntiReach.stimTheta
    rw [if_pos rfl, cos_sub_npMod]
    rcases lt_or_ge g m with hgm | hgm
    · have hmod : (g + m) % (2 * m) = g + m := Nat.mod_eq_of_lt (by omega)
      rw [hmod]
      have harg : AntiReach.features (2 * m) (g + m) -
          (AntiReach.features (2 * m) g + π) = 0 := by
        unfold AntiReach.features
        have hm' : ((m : ℝ)) ≠ 0 := Nat.cast_ne_zero.mpr hm.ne'
        push_cast
        field_simp
        ring
      rw [harg, Real.cos_zero]
    · have hmod : (g + m) % (2 * m) = g - m := by
        rw [Nat.mod_eq_sub_mod (by omega), Nat.mod_eq_of_lt (by omega)]
        omega
      rw [hmod]
      have harg : AntiReach.features (2 * m) (g - m) -
          (AntiReach.features (2 * m) g + π) = -(2 * π) := by
        unfold AntiReach.features
        have hm' : ((m : ℝ)) ≠ 0 := Nat.cast_ne_zero.mpr hm.ne'
        rw [Nat.cast_sub hgm]
        push_cast
        field_simp
        ring
      rw [harg, Real.cos_neg, Real.cos_two_pi]
  · unfold AntiReach.stim AntiReach.stimTheta
    rw [if_neg (by simp), sub_self, Real.cos_zero]

/-- Witness for C3: `num_choice = 4`, `ground_truth = 1`; the opposite index
is `(1 + 4/2) % 4 = 3`. -/
theorem antiReach_stim_theta_peak_witness :
    AntiReach.stimTheta 4 true 1 = npMod (AntiReach.features 4 1 + π) (2 * π) ∧
    AntiReach.stimTheta 4 false 1 = AntiReach.features 4 1 ∧
    (∀ j, AntiReach.stim 4 true 1 j ≤ 1) ∧
    AntiReach.stim 4 true 1 3 = 1 ∧
    (∀ j, AntiReach.stim 4 false 1 j ≤ 1) ∧
    AntiReach.stim 4 false 1 1 = 1 :=
  antiReach_stim_theta_peak 4 2 1 rfl (by norm_num) (by norm_num)

/-- C8: both samplers are deterministic functions of the configuration, the
realized durations and the generator draw — the trial index `item` does not
influence the output, and repeated calls with the same realized values are
identical. -/
theorem sample_a_trial_deterministic (numChoice : Nat) (anti : Bool)
    (nFix nStim nDelay nDecision g : Nat)
    (iT : Option (Arr2 → Arr2)) (tT : Option (Arr1 ℤ → Arr1 ℤ))
    (numChoiceR nFixR nReachR : Nat) (gR : ℝ)
    (iTR : Option (Arr2 → Arr2)) (tTR : Option (Arr1 ℤ → Arr1 ℤ))
    (item1 item2 : Nat) :
    AntiReach.sample_a_trial numChoice anti nFix nStim nDelay nDecision g iT tT item1 =
      AntiReach.sample_a_trial numChoice anti nFix nStim nDelay nDecision g iT tT item2 ∧
    Reaching1D.sample_a_trial numChoiceR nFixR nReachR gR iTR tTR item1 =
      Reaching1D.sample_a_trial numChoiceR nFixR nReachR gR iTR tTR item2 :=
  ⟨rfl, rfl⟩

/-- C9: for both samplers, an identity input/target transform produces the
same trial as no transform at all, and a transform that fails aborts the call
with exactly its error — no partial trial is returned. -/
theorem transform_identity_and_error_propagation
    (numChoice : Nat) (anti : Bool) (nFix nStim nDelay nDecision g item : Nat)
    (numChoiceR nFixR nReachR : Nat) (gR : ℝ)
    (e1 e2 e3 e4 : String)
    (fX : Arr2 → Except String Arr2) (fY : Arr1 ℤ → Except String (Arr1 ℤ))
    (fXR : Arr2 → Except String Arr2) (fYR : Arr1 ℤ → Except String (Arr1 ℤ))
    (hfX : fX (AntiReach.rawX numChoice anti nFix nStim nDelay nDecision g) =
      Except.error e1)
    (hfY : fY (AntiReach.rawY nFix nStim nDelay nDecision g) = Except.error e2)
    (hfXR : fXR (Reaching1D.rawX numChoiceR nFixR nReachR gR) = Except.error e3)
    (hfYR : fYR (Reaching1D.rawY nFixR nReachR gR) = Except.error e4) :
    AntiReach.sample_a_trial numChoice anti nFix nStim nDelay nDecision g
        (some id) (some id) item =
      AntiReach.sample_a_trial numChoice anti nFix nStim nDelay nDecision g
        none none item ∧
    Reaching1D.sample_a_trial numChoiceR nFixR nReachR gR (some id) (some id) item =
      Reaching1D.sample_a_trial numChoiceR nFixR nReachR gR none none item ∧
    AntiReach.sampleATrialE numChoice anti nFix nStim nDelay nDecision g
        (some fX) none item = Except.error e1 ∧
    AntiReach.sampleATrialE numChoice anti nFix nStim nDelay nDecision g
        none (some fY) item = Except.error e2 ∧
    Reaching1D.sampleATrialE numChoiceR nFixR nReachR gR (some fXR) none item =
      Except.error e3 ∧
    Reaching1D.sampleATrialE numChoiceR nFixR nReachR gR none (some fYR) item =
      Except.error e4 := by
  refine ⟨rfl, rfl, ?_, ?_, ?_, ?_⟩
  · simp [AntiReach.sampleATrialE, hfX]
  · simp [AntiReach.sampleATrialE, hfY]
  · simp [Reaching1D.sampleATrialE, hfXR]
  · simp [Reaching1D.sampleATrialE, hfYR]

/-- Witness for C9: concrete tasks with identity transforms and with
transforms that always fail. -/
theorem transform_identity_and_error_propagation_witness :
    (AntiReach.sample_a_trial 1 true 1 1 0 1 0 (some id) (some id) 0 =
      AntiReach.sample_a_trial 1 true 1 1 0 1 0 none none 0) ∧
    (Reaching1D.sample_a_trial 1 1 1 0 (some id) (some id) 0 =
      Reaching1D.sample_a_trial 1 1 1 0 none none 0) ∧
    (AntiReach.sampleATrialE 1 true 1 1 0 1 0
      (some fun _ => Except.error "boomX") none 0 = Except.error "boomX") ∧
    (AntiReach.sampleATrialE 1 true 1 1 0 1 0
      none (some fun _ => Except.error "boomY") 0 = Except.error "boomY") ∧
    (Reaching1D.sampleATrialE 1 1 1 0
      (some fun _ => Except.error "boomXR") none 0 = Except.error "boomXR") ∧
    (Reaching1D.sampleATrialE 1 1 1 0
      none (some fun _ => Except.error "boomYR") 0 = Except.error "boomYR") :=
  transform_identity_and_error_propagation 1 true 1 1 0 1 0 0 1 1 1 0
    "boomX" "boomY" "boomXR" "boomYR"
    (fun _ => Except.error "boomX") (fun _ => Except.error "boomY")
    (fun _ => Except.error "boomXR") (fun _ => Except.error "boomYR")
    rfl rfl rfl rfl

/-- C10: for both samplers with no transforms, the axis metadata matches the
arrays: the same time-axis layout is returned for `X` and `Y`, its lengths sum
to the number of time steps of `X` and of `Y`, and the feature-axis lengths
sum to the channel count of `X` — `num_choice + 1` for `AntiReach` and
`2*num_choice` for `Reaching1D`. -/
theorem axis_metadata_consistent (numChoice : Nat) (anti : Bool)
    (nFix nStim nDelay nDecision g item : Nat)
    (numChoiceR nFixR nReachR : Nat) (gR : ℝ) :
    (AntiReach.sample_a_trial numChoice anti nFix nStim nDelay nDecision g
        none none item).Yax0 =
      (AntiReach.sample_a_trial numChoice anti nFix nStim nDelay nDecision g
        none none item).Xax0 ∧
    sumLens (AntiReach.sample_a_trial numChoice anti nFix nStim nDelay nDecision g
        none none item).Xax0 =
      (AntiReach.sample_a_trial numChoice anti nFix nStim nDelay nDecision g
        none none item).X.rows ∧
    sumLens (AntiReach.sample_a_trial numChoice anti nFix nStim nDelay nDecision g
        none none item).Yax0 =
      (AntiReach.sample_a_trial numChoice anti nFix nStim nDelay nDecision g
        none none item).Y.size ∧
    sumLens (AntiReach.sample_a_trial numChoice anti nFix nStim nDelay nDecision g
        none none item).Xax1 =
      (AntiReach.sample_a_trial numChoice anti nFix nStim nDelay nDecision g
        none none item).X.cols ∧
    (AntiReach.sample_a_trial numChoice anti nFix nStim nDelay nDecision g
        none none item).X.cols = numChoice + 1 ∧
    (Reaching1D.sample_a_trial numChoiceR nFixR nReachR gR none none item).Yax0 =
      (Reaching1D.sample_a_trial numChoiceR nFixR nReachR gR none none item).Xax0 ∧
    sumLens (Reaching1D.sample_a_trial numChoiceR nFixR nReachR gR none none item).Xax0 =
      (Reaching1D.sample_a_trial numChoiceR nFixR nReachR gR none none item).X.rows ∧
    sumLens (Reaching1D.sample_a_trial numChoiceR nFixR nReachR gR none none item).Yax0 =
      (Reaching1D.sample_a_trial numChoiceR nFixR nReachR gR none none item).Y.size ∧
    sumLens (Reaching1D.sample_a_trial numChoiceR nFixR nReachR gR none none item).Xax1 =
      (Reaching1D.sample_a_trial numChoiceR nFixR nReachR gR none none item).X.cols ∧
    (Reaching1D.sample_a_trial numChoiceR nFixR nReachR gR none none item).X.cols =
      2 * numChoiceR := by
  refine ⟨rfl, rfl, rfl, ?_, rfl, rfl, rfl, rfl, ?_, rfl⟩
  · show sumLens (AntiReach.dim1 numChoice) = numChoice + 1
    simp [sumLens, AntiReach.dim1]
    omega
  · show sumLens (Reaching1D.dim1 numChoiceR) = 2 * numChoiceR
    simp [sumLens, Reaching1D.dim1]
    omega

end

end BrainpyDatasets
